import Mathlib

/-!
Verification development for the lightning_import bulk CSV import engine
(`lightning_upload.py`).  The Python code is shallowly embedded: dictionaries
become association lists, typed cell values become an inductive `Value`,
framework-provided parsers (int/float/date/datetime coercion) and the record
store are parameters, and exceptions become `Except`.  Python truthiness is
modelled explicitly where the source relies on it.
-/

set_option linter.unusedVariables false
set_option linter.unusedSectionVars false

namespace LightningImport

/-- Association-list lookup, mirroring Python `dict.get`: the first binding of
the key wins (Python dicts hold at most one). -/
def getVal {κ α : Type} [DecidableEq κ] : List (κ × α) → κ → Option α
  | [], _ => none
  | (k2, v) :: rest, k => if k2 = k then some v else getVal rest k

/-- Association-list assignment, mirroring Python `d[k] = v`: replaces the
first binding in place, otherwise appends (dict insertion order). -/
def setVal {κ α : Type} [DecidableEq κ] : List (κ × α) → κ → α → List (κ × α)
  | [], k, v => [(k, v)]
  | (k2, v2) :: rest, k, v =>
      if k2 = k then (k, v) :: rest else (k2, v2) :: setVal rest k v

instance {ε α : Type} [DecidableEq ε] [DecidableEq α] :
    DecidableEq (Except ε α)
  | .ok x, .ok y =>
      if h : x = y then .isTrue (by rw [h])
      else .isFalse (by intro hc; cases hc; exact h rfl)
  | .ok _, .error _ => .isFalse (by intro hc; cases hc)
  | .error _, .ok _ => .isFalse (by intro hc; cases hc)
  | .error d, .error e =>
      if h : d = e then .isTrue (by rw [h])
      else .isFalse (by intro hc; cases hc; exact h rfl)

/-- A typed cell value produced by row transformation.  `F`, `D`, `T` are the
(abstract) carrier types of the framework's float, date and datetime values;
`null` is Python `None`. -/
inductive Value (F D T : Type) where
  | null
  | str (s : String)
  | intv (n : Int)
  | floatv (x : F)
  | datev (x : D)
  | datetimev (x : T)
  deriving DecidableEq

/-- The coercion backend: the framework's parsers (`int()`, `float()`,
`frappe.utils.getdate`, `frappe.utils.get_datetime`, failure = exception =
`none`), together with the pieces of Python semantics the code relies on
(`cstr` string conversion and zero-testing for truthiness). -/
structure Coercers (F D T : Type) where
  parseInt : String → Option Int
  parseFloat : String → Option F
  parseDate : String → Option D
  parseDatetime : String → Option T
  floatIsZero : F → Bool
  floatStr : F → String
  dateStr : D → String
  datetimeStr : T → String

variable {F D T : Type} [DecidableEq F] [DecidableEq D] [DecidableEq T]

/-- Python truthiness of a transformed value (`bool(v)`): `None`, the empty
string, integer 0 and float 0.0 are falsy; dates and datetimes are truthy. -/
def Coercers.falsy (c : Coercers F D T) : Value F D T → Bool
  | .null => true
  | .str s => s = ""
  | .intv n => n = 0
  | .floatv x => c.floatIsZero x
  | .datev _ => false
  | .datetimev _ => false

/-- Truthiness of `d.get(k)`: a missing key gives `None`, which is falsy. -/
def Coercers.falsyOpt (c : Coercers F D T) : Option (Value F D T) → Bool
  | none => true
  | some v => c.falsy v

/-- Python `cstr` as used when serialising values into SQL or CSV text:
`None` becomes the empty string, other values their string form. -/
def Coercers.cstr (c : Coercers F D T) : Value F D T → String
  | .null => ""
  | .str s => s
  | .intv n => toString n
  | .floatv x => c.floatStr x
  | .datev x => c.dateStr x
  | .datetimev x => c.datetimeStr x

/-- A raw (mapped) CSV row: external values are either a string or `None`
(`row.get(csv_field, None)` in `get_mapped_data`). -/
abbrev RawRow := List (String × Option String)

/-- A transformed record: internal field name to typed value. -/
abbrev Record (F D T : Type) := List (String × Value F D T)

/-- Coercion of one non-empty raw string by declared field type
(`lightning_upload.py` lines 127-136): `Int`/`Float`/`Date`/`Datetime` parse,
anything else passes through as a string; a parse failure raises
`Invalid value for field {field}: {value}`. -/
def convertValue (c : Coercers F D T) (ft field s : String) :
    Except String (Value F D T) :=
  if ft = "Int" then
    match c.parseInt s with
    | some n => .ok (.intv n)
    | none => .error ("Invalid value for field " ++ field ++ ": " ++ s)
  else if ft = "Float" then
    match c.parseFloat s with
    | some x => .ok (.floatv x)
    | none => .error ("Invalid value for field " ++ field ++ ": " ++ s)
  else if ft = "Date" then
    match c.parseDate s with
    | some x => .ok (.datev x)
    | none => .error ("Invalid value for field " ++ field ++ ": " ++ s)
  else if ft = "Datetime" then
    match c.parseDatetime s with
    | some x => .ok (.datetimev x)
    | none => .error ("Invalid value for field " ++ field ++ ": " ++ s)
  else
    .ok (.str s)

/-- One iteration of the conversion loop (lines 123-138): a known field with a
truthy raw value is coerced by type, a known field with an empty or absent raw
value becomes an explicit `None`, an unknown field passes through unchanged. -/
def coerceEntry (c : Coercers F D T) (fieldTypes : List (String × String))
    (acc : Record F D T) (field : String) (value : Option String) :
    Except String (Record F D T) :=
  match getVal fieldTypes field with
  | some ft =>
      match value with
      | some s =>
          if s = "" then .ok (setVal acc field .null)
          else (convertValue c ft field s).map (setVal acc field)
      | none => .ok (setVal acc field .null)
  | none =>
      .ok (setVal acc field (match value with
        | some s => .str s
        | none => .null))

/-- The full conversion loop over a row (lines 122-138). -/
def convertRow (c : Coercers F D T) (fieldTypes : List (String × String))
    (row : RawRow) : Except String (Record F D T) :=
  row.foldlM (fun acc p => coerceEntry c fieldTypes acc p.1 p.2) []

/-- The required-field check (lines 140-142): a required field whose converted
value is falsy (`not converted_data.get(f)`) counts as missing; all missing
fields are reported together in one message. -/
def checkRequired (c : Coercers F D T) (required : List String)
    (conv : Record F D T) : Except String Unit :=
  let missing := required.filter (fun f => c.falsyOpt (getVal conv f))
  if missing.isEmpty then .ok ()
  else
    let j := String.intercalate ", " missing
    .error ("Missing required fields: " ++ j)

/-- The three import modes of the `import_type` select field. -/
inductive ImportType where
  | insertUpdate   -- "Insert and Update Records"
  | insertNew      -- "Insert New Records"
  | updateExisting -- "Update Existing Records"
  deriving DecidableEq

/-- Job configuration read from the `Lightning Upload` document: import mode,
the upsert key column (`update_on_field`), the parsed `field_mapping` JSON,
and the session user / current timestamp used for audit defaults. -/
structure JobParams where
  importType : ImportType
  updateOnField : Option String
  fieldMapping : List (String × String)
  user : String
  now : String

/-- The external collaborators of one `insert_records` call: the validation
hooks (gated by the settings flag), the existing-record lookup used by upsert
key resolution, the two bulk statement executors (an `Except.error` is a
statement-level store rejection), and the docname generator. -/
structure Env (F D T : Type) where
  hookEnabled : Bool
  hooks : List (Record F D T → Option String)
  existingDocs : List (Value F D T × String)
  insertExec : List (Record F D T) → Except String Unit
  updateExec : List (Record F D T) → Except String Unit
  gen : Nat → String

/-- Run registered hooks in order; the first exception fails the row
(`validate_row_data`, lines 326-330). -/
def firstHookError : List (Record F D T → Option String) → Record F D T →
    Option String
  | [], _ => none
  | h :: rest, r =>
      match h r with
      | some e => some e
      | none => firstHookError rest r

/-- `validate_row_data`: hooks run only when enabled in settings. -/
def runHooks (env : Env F D T) (r : Record F D T) : Option String :=
  if env.hookEnabled then firstHookError env.hooks r else none

/-- Audit-field synthesis (lines 144-147): `owner`, `modified_by`, `creation`
and `modified` are defaulted only when the row did not supply them. -/
def addDefaults (P : JobParams) (conv : Record F D T) : Record F D T :=
  let c1 := if (getVal conv "owner").isNone
    then setVal conv "owner" (.str P.user) else conv
  let c2 := if (getVal c1 "modified_by").isNone
    then setVal c1 "modified_by" (.str P.user) else c1
  let c3 := if (getVal c2 "creation").isNone
    then setVal c2 "creation" (.str P.now) else c2
  if (getVal c3 "modified").isNone
    then setVal c3 "modified" (.str P.now) else c3

/-- Step 1 of `insert_records` for one row (lines 120-154): coercion,
required check, audit defaults, then the validation hook; any failure at any
stage fails just this row with its message. -/
def prepareRecord (c : Coercers F D T) (P : JobParams) (env : Env F D T)
    (fieldTypes : List (String × String)) (required : List String)
    (row : RawRow) : Except String (Record F D T) := do
  let conv ← convertRow c fieldTypes row
  let _ ← checkRequired c required conv
  let conv2 := addDefaults P conv
  match runHooks env conv2 with
  | some e => .error e
  | none => .ok conv2

/-- A failed row keeps whatever stage's data was in hand: the raw row for a
transformation failure, the converted record for a statement failure. -/
inductive RowData (F D T : Type) where
  | raw (r : RawRow)
  | conv (r : Record F D T)
  deriving DecidableEq

/-- One entry of the job's failure list: row data plus error text. -/
structure FailedRow (F D T : Type) where
  row : RowData F D T
  error : String
  deriving DecidableEq

/-- One iteration of the preparation loop: a prepared record is appended to
`records_to_process`, a failure to `failed_rows` with the raw row. -/
def prepareStep (c : Coercers F D T) (P : JobParams) (env : Env F D T)
    (fieldTypes : List (String × String)) (required : List String)
    (acc : List (Record F D T) × List (FailedRow F D T)) (row : RawRow) :
    List (Record F D T) × List (FailedRow F D T) :=
  match prepareRecord c P env fieldTypes required row with
  | .ok r => (acc.1 ++ [r], acc.2)
  | .error e => (acc.1, acc.2 ++ [⟨.raw row, e⟩])

/-- The preparation loop over a batch (lines 119-154): rows are partitioned
into prepared records and failed rows, in input order. -/
def prepareRows (c : Coercers F D T) (P : JobParams) (env : Env F D T)
    (fieldTypes : List (String × String)) (required : List String)
    (rows : List RawRow) : List (Record F D T) × List (FailedRow F D T) :=
  rows.foldl (prepareStep c P env fieldTypes required) ([], [])

/-- One bulk statement issued against the record store. -/
inductive WriteCall (F D T : Type) where
  | insert (recs : List (Record F D T))
  | update (recs : List (Record F D T))
  deriving DecidableEq

/-- Fixed-size chunking worker, structurally recursive on a fuel bound that
dominates the number of slices (the list length suffices when `0 < n`). -/
def chunksOfFuel {α : Type} (n : Nat) : Nat → List α → List (List α)
  | _, [] => []
  | 0, _ :: _ => []
  | fuel + 1, x :: xs =>
      (x :: xs).take n :: chunksOfFuel n fuel ((x :: xs).drop n)

/-- Fixed-size chunking (`range(0, n, size)` slicing). -/
def chunksOf {α : Type} (n : Nat) (l : List α) : List (List α) :=
  if n = 0 then [] else chunksOfFuel n l.length l

/-- `Insert New Records` naming (lines 206-207): every prepared record gets a
freshly generated docname. -/
def nameRecords (env : Env F D T) (records : List (Record F D T)) :
    List (Record F D T) :=
  records.enum.map (fun p => setVal p.2 "name" (.str (env.gen p.1)))

/-- Upsert partitioning (lines 182-191): rows whose key value is found among
existing records are routed to update with the existing docname, the rest get
a generated docname and are routed to insert.  Returns
(to_insert, to_update, records_to_process after in-place name mutation). -/
def partitionUpsert (env : Env F D T) (keyField : String)
    (existingMap : List (Value F D T × String)) :
    List (Record F D T) → Nat →
    List (Record F D T) × List (Record F D T) × List (Record F D T)
  | [], _ => ([], [], [])
  | r :: rest, k =>
      match (getVal r keyField).bind (fun v => getVal existingMap v) with
      | some nm =>
          let r2 := setVal r "name" (.str nm)
          let (ti, tu, alln) := partitionUpsert env keyField existingMap rest k
          (ti, r2 :: tu, r2 :: alln)
      | none =>
          let r2 := setVal r "name" (.str (env.gen k))
          let (ti, tu, alln) :=
            partitionUpsert env keyField existingMap rest (k + 1)
          (r2 :: ti, tu, r2 :: alln)

/-- Sequential execution of update sub-chunks (lines 195-198 / 213-216); the
first statement failure aborts the remaining chunks. -/
def runUpdates (env : Env F D T) :
    List (List (Record F D T)) → Except String Unit × List (WriteCall F D T)
  | [] => (.ok (), [])
  | ch :: rest =>
      match env.updateExec ch with
      | .ok _ =>
          let (res, calls) := runUpdates env rest
          (res, .update ch :: calls)
      | .error e => (.error e, [.update ch])

/-- Outcome of the step-2 fork of `insert_records`: the success count or the
escaping exception, the bulk statements attempted, and the state of
`records_to_process` at that point (names are mutated in place, so rows
already named stay named in the failure list). -/
structure ForkOut (F D T : Type) where
  result : Except String Nat
  calls : List (WriteCall F D T)
  recsNow : List (Record F D T)

/-- Size of one update sub-chunk (lines 194, 213). -/
def UPDATE_CHUNK_SIZE : Nat := 1000

/-- Step 2 of `insert_records` (lines 160-217): the mode fork.  In upsert
mode a missing or unmapped key column raises a configuration `ValueError`
before any partitioning or write. -/
def runFork (c : Coercers F D T) (P : JobParams) (env : Env F D T)
    (records : List (Record F D T)) : ForkOut F D T :=
  match P.importType with
  | .insertUpdate =>
      let cfg1 :=
        "Validate On CSV Column not specified for \x27Insert and Update\x27 mode."
      match P.updateOnField with
      | none => ⟨.error cfg1, [], records⟩
      | some col =>
          if col = "" then ⟨.error cfg1, [], records⟩
          else
            let cfg2 := "The selected update column \x27" ++ col ++
              "\x27 is not mapped to any DocType field."
            match getVal P.fieldMapping col with
            | none => ⟨.error cfg2, [], records⟩
            | some mf =>
                if mf = "" then ⟨.error cfg2, [], records⟩
                else
                  let keysToCheck :=
                    ((records.filterMap (fun r => getVal r mf)).filter
                      (fun v => ! c.falsy v)).eraseDups
                  let existingMap := env.existingDocs.filter
                    (fun p => p.1 ∈ keysToCheck)
                  let (toIns, toUpd, named) :=
                    partitionUpsert env mf existingMap records 0
                  let (ures, ucalls) :=
                    runUpdates env (chunksOf UPDATE_CHUNK_SIZE toUpd)
                  match ures with
                  | .error e => ⟨.error e, ucalls, named⟩
                  | .ok _ =>
                      if toIns.isEmpty then
                        ⟨.ok (toIns.length + toUpd.length), ucalls, named⟩
                      else
                        match env.insertExec toIns with
                        | .ok _ =>
                            ⟨.ok (toIns.length + toUpd.length),
                              ucalls ++ [.insert toIns], named⟩
                        | .error e =>
                            ⟨.error e, ucalls ++ [.insert toIns], named⟩
  | .insertNew =>
      let named := nameRecords env records
      match env.insertExec named with
      | .ok _ => ⟨.ok named.length, [.insert named], named⟩
      | .error e => ⟨.error e, [.insert named], named⟩
  | .updateExisting =>
      let (ures, ucalls) :=
        runUpdates env (chunksOf UPDATE_CHUNK_SIZE records)
      match ures with
      | .ok _ => ⟨.ok records.length, ucalls, records⟩
      | .error e => ⟨.error e, ucalls, records⟩

/-- Return value of `insert_records`, plus the statements it issued. -/
structure InsertResult (F D T : Type) where
  successCount : Nat
  failedRows : List (FailedRow F D T)
  calls : List (WriteCall F D T)
  deriving DecidableEq

/-- `insert_records` (lines 109-225): prepare all rows, then run the mode
fork; an exception escaping the fork is caught (lines 219-223), marking every
record in `records_to_process` failed with the exception text and zeroing the
success count — the call itself always returns. -/
def insertRecords (c : Coercers F D T) (P : JobParams) (env : Env F D T)
    (fieldTypes : List (String × String)) (required : List String)
    (rows : List RawRow) : InsertResult F D T :=
  let pr := prepareRows c P env fieldTypes required rows
  if pr.1.isEmpty then ⟨0, pr.2, []⟩
  else
    let fk := runFork c P env pr.1
    match fk.result with
    | .ok n => ⟨n, pr.2, fk.calls⟩
    | .error e =>
        ⟨0, pr.2 ++ fk.recsNow.map (fun r => ⟨.conv r, e⟩), fk.calls⟩

/-- Column headers of a failed row's data, in dict order. -/
def rowKeys : RowData F D T → List String
  | .raw r => r.map Prod.fst
  | .conv r => r.map Prod.fst

/-- CSV cells of a failed row's data (`csv.writer` renders `None` as the
empty string and other values by their string form). -/
def rowCells (c : Coercers F D T) : RowData F D T → List String
  | .raw r => r.map (fun p => p.2.getD "")
  | .conv r => r.map (fun p => c.cstr p.2)

/-- `generate_error_file` (lines 288-324), modelled as the cell matrix of the
produced CSV: a header row from the first failure's keys plus
`Error Message` / `Row Number`, then one row per failure whose row number is
its 1-based position in the failure list (`enumerate(failed_rows, 1)`). -/
def generateErrorFile (c : Coercers F D T) (fails : List (FailedRow F D T)) :
    Option (List (List String)) :=
  match fails with
  | [] => none
  | f0 :: _ =>
      some ((rowKeys f0.row ++ ["Error Message", "Row Number"]) ::
        fails.enum.map (fun p =>
          rowCells c p.2.row ++ [p.2.error, toString (p.1 + 1)]))

/-- Terminal status computation (lines 491-496). -/
def finalStatus (total failed : Nat) : String :=
  if failed = total then "Failed"
  else if 0 < failed then "Partial Success"
  else "Completed"

/-- Persisted outcome of one `process_import_queue` run. -/
structure QueueResult (F D T : Type) where
  total : Nat
  successful : Nat
  failed : Nat
  allFailed : List (FailedRow F D T)
  status : String
  errorFile : Option (List (List String))

/-- One batch iteration of the processing loop (lines 423-456): counters
accumulate the batch result and failures are appended to the job list. -/
def queueStep (c : Coercers F D T) (P : JobParams) (env : Env F D T)
    (fieldTypes : List (String × String)) (required : List String)
    (acc : Nat × Nat × List (FailedRow F D T)) (b : List RawRow) :
    Nat × Nat × List (FailedRow F D T) :=
  let r := insertRecords c P env fieldTypes required b
  (acc.1 + r.successCount, acc.2.1 + r.failedRows.length,
    acc.2.2 ++ r.failedRows)

/-- `process_import_queue` (lines 368-544), restricted to its persisted
outcome: the mapped rows are processed in batches of the configured size,
counters accumulate each batch's result, the error file is generated when
failures exist, and the terminal status is derived from the counters. -/
def processImportQueue (c : Coercers F D T) (P : JobParams) (env : Env F D T)
    (fieldTypes : List (String × String)) (required : List String)
    (batchSize : Nat) (rows : List RawRow) : QueueResult F D T :=
  let batches := chunksOf batchSize rows
  let acc := batches.foldl (queueStep c P env fieldTypes required) (0, 0, [])
  { total := rows.length
    successful := acc.1
    failed := acc.2.1
    allFailed := acc.2.2
    status := finalStatus rows.length acc.2.1
    errorFile :=
      if acc.2.2.isEmpty then none else generateErrorFile c acc.2.2 }

/-- What Python sees as the string form of a record's `name` when splicing it
into the generated SQL (`frappe.db.escape(record[\x27name\x27])`); an absent
name is never spliced because of the truthiness guards. -/
def nameStr (c : Coercers F D T) (r : Record F D T) : String :=
  c.cstr ((getVal r "name").getD .null)

/-- `record.get(field) is not None`: the field is present with a non-null
value. -/
def hasFieldValue (r : Record F D T) (f : String) : Bool :=
  match getVal r f with
  | some .null => false
  | some _ => true
  | none => false

/-- Truthiness of `record.get(\x27name\x27)`. -/
def truthyName (c : Coercers F D T) (r : Record F D T) : Bool :=
  ! c.falsyOpt (getVal r "name")

/-- `updatable_fields` of `_execute_bulk_update` (line 253). -/
def updatableFields (metaFields : List String) : List String :=
  metaFields ++ ["modified", "modified_by"]

/-- `fields_to_update` (lines 256-258): the sorted set of keys present in at
least one record and allowed to be updated. -/
def fieldsToUpdate (metaFields : List String)
    (records : List (Record F D T)) : List String :=
  (((records.map (fun r => (r.map Prod.fst).filter
      (fun k => k ∈ updatableFields metaFields))).flatten).eraseDups).mergeSort
    (fun a b => a ≤ b)

/-- The records contributing a `WHEN` arm for a field (line 266-269): truthy
name and a non-null value for that field, in record order (SQL `CASE`
evaluates arms in order, first match wins). -/
def caseRecords (c : Coercers F D T) (records : List (Record F D T))
    (f : String) : List (Record F D T) :=
  records.filter (fun r => truthyName c r && hasFieldValue r f)

/-- The record store table for the target type: rows of (name, field→text),
as mutated by the generated `UPDATE ... SET field = CASE ... END WHERE name
IN (...)` statement. -/
abbrev Store := List (String × List (String × String))

/-- Semantics of the statement built by `_execute_bulk_update`
(lines 245-286) on a store: rows outside the `WHERE` name set are untouched;
for a row in the set, each field having at least one `CASE` arm takes the
first arm whose name matches, and keeps its stored value otherwise (the
`ELSE field` default branch); the early returns for empty input, no
updatable fields and no `SET` clauses leave the store unchanged. -/
def applyBulkUpdate (c : Coercers F D T) (metaFields : List String)
    (records : List (Record F D T)) (store : Store) : Store :=
  if records.isEmpty then store
  else
    let ftu := fieldsToUpdate metaFields records
    if ftu.isEmpty then store
    else
      let activeFields :=
        ftu.filter (fun f => ! (caseRecords c records f).isEmpty)
      if activeFields.isEmpty then store
      else
        let whereNames := (records.filterMap (fun r =>
          if truthyName c r then some (nameStr c r) else none)).eraseDups
        store.map (fun row =>
          if row.1 ∈ whereNames then
            (row.1, activeFields.foldl (fun vs f =>
              match (caseRecords c records f).find?
                  (fun r => nameStr c r = row.1) with
              | some r => setVal vs f (c.cstr ((getVal r f).getD .null))
              | none => vs) row.2)
          else row)

/-- Value of field `f` on the first store row named `n`. -/
def storeLookup (store : Store) (n f : String) : Option String :=
  (store.find? (fun row => row.1 = n)).bind (fun row => getVal row.2 f)

/-- The slice of a `Lightning Upload` document that `start_import` touches. -/
structure StartState where
  status : String
  fieldMapping : Option String
  deriving DecidableEq

/-- Observable outcome of `start_import`. -/
structure StartOut where
  ok : Bool
  message : String
  newStatus : String
  enqueued : Bool
  deriving DecidableEq

/-- `start_import` (lines 620-683): any thrown error is caught and the
handler resets the document status to `Draft`; on success the status becomes
`Queued` and the background task is enqueued. -/
def startImport (st : StartState) (mapping : Option String) : StartOut :=
  if st.status ≠ "Draft" then
    ⟨false, "Import can only be started from Draft status", "Draft", false⟩
  else
    let fm := match mapping with
      | some m => if m ≠ "" then some m else st.fieldMapping
      | none => st.fieldMapping
    match fm with
    | none => ⟨false, "Please map fields before starting import", "Draft", false⟩
    | some m =>
        if m = "" then
          ⟨false, "Please map fields before starting import", "Draft", false⟩
        else ⟨true, "Import process started successfully", "Queued", true⟩

/-- One schema field as seen by the mapping engine: name, optional label,
required flag (layout-only field kinds are already excluded upstream). -/
structure FieldMeta where
  fieldname : String
  label : Option String
  reqd : Bool
  deriving DecidableEq

/-- `get_detailed_doctype_fields` (lines 332-346): schema fields followed by
the five fixed system fields with their labels. -/
def detailedFields (fields : List FieldMeta) : List (String × Option String) :=
  fields.map (fun f => (f.fieldname, f.label)) ++
    [("name", some "ID"), ("owner", some "Owner"),
     ("creation", some "Created On"), ("modified", some "Last Modified"),
     ("modified_by", some "Modified By")]

/-- Header/field normalization (lines 595-596): lower-case the string and
turn each underscore or hyphen into a space
(`s.lower().replace("_", " ").replace("-", " ")`, performed per character
since both replacements are single-character substitutions). -/
def normalize (s : String) : String :=
  ⟨s.data.map (fun ch =>
    let lc := ch.toLower
    if lc = '_' ∨ lc = '-' then ' ' else lc)⟩

/-- The writes one detailed field contributes to `normalized_field_map`
(lines 598-602): its normalized name when truthy, then its normalized label
(when truthy) also targeting the field name. -/
def fieldWrites (p : String × Option String) : List (String × String) :=
  (if p.1 ≠ "" then [(normalize p.1, p.1)] else []) ++
    (match p.2 with
     | some l => if l ≠ "" then [(normalize l, p.1)] else []
     | none => [])

/-- The full sequence of writes into `normalized_field_map` (lines 598-605):
per-field writes in order, then the two hard-coded overrides `id → name` and
`name → first_name`. -/
def mapWrites (fields : List FieldMeta) : List (String × String) :=
  (detailedFields fields).flatMap fieldWrites ++
    [("id", "name"), ("name", "first_name")]

/-- `normalized_field_map` as a dict: later writes overwrite earlier ones. -/
def buildFieldMap (fields : List FieldMeta) : List (String × String) :=
  (mapWrites fields).foldl (fun m p => setVal m p.1 p.2) []

/-- The required field names of the target type (line 590). -/
def requiredNames (fields : List FieldMeta) : List String :=
  (fields.filter (fun f => f.reqd)).map (fun f => f.fieldname)

/-- `auto_map_and_validate` (lines 576-618) on its two real inputs: the
schema fields and the CSV headers.  Returns the header→field mapping (empty
target = unmapped) and the required fields not covered by any mapping
target. -/
def autoMapAndValidate (fields : List FieldMeta) (headers : List String) :
    List (String × String) × List String :=
  let m := buildFieldMap fields
  let mapping := headers.map (fun h => (h, (getVal m (normalize h)).getD ""))
  let mapped := (mapping.map Prod.snd).filter (fun v => v ≠ "")
  let unmappedRequired :=
    (requiredNames fields).filter (fun f => ¬ f ∈ mapped)
  (mapping, unmappedRequired)

/-! Concrete instantiations used to exercise the model on closed inputs:
integers stand in for the framework's float/date/datetime carriers, and the
parsers are simple total functions. -/

/-- Decimal digit value of a character, used by the concrete test parser. -/
def digitVal (ch : Char) : Option Nat :=
  if ch.isDigit then some (ch.toNat - 48) else none

/-- Parse a non-empty all-digit character list as a natural number. -/
def natFromDigits (l : List Char) : Option Nat :=
  match l with
  | [] => none
  | _ =>
      l.foldlM (fun acc ch => (digitVal ch).map (fun d => acc * 10 + d)) 0

/-- A concrete integer parser for closed evaluations (optional sign and
decimal digits). -/
def simpleParseInt (s : String) : Option Int :=
  match s.data with
  | '-' :: rest => (natFromDigits rest).map (fun n => -(n : Int))
  | l => (natFromDigits l).map (fun n => (n : Int))

/-- A concrete coercion backend for closed evaluations. -/
def c0 : Coercers Int Int Int :=
  { parseInt := simpleParseInt, parseFloat := simpleParseInt,
    parseDate := fun _ => some 7, parseDatetime := fun _ => some 8,
    floatIsZero := fun x => x = 0, floatStr := toString,
    dateStr := toString, datetimeStr := toString }

/-- A concrete insert-only job configuration. -/
def P0 : JobParams :=
  { importType := .insertNew, updateOnField := none, fieldMapping := [],
    user := "u", now := "t" }

/-- A concrete environment whose store accepts every statement. -/
def env0 : Env Int Int Int :=
  { hookEnabled := false, hooks := [], existingDocs := [],
    insertExec := fun _ => .ok (), updateExec := fun _ => .ok (),
    gen := fun i => "N" ++ toString i }

/-- An upsert job with no key column configured. -/
def P7 : JobParams :=
  { P0 with importType := .insertUpdate, updateOnField := none }

/-- An environment whose bulk insert statement is rejected by the store. -/
def envF : Env Int Int Int :=
  { env0 with insertExec := fun _ => .error "boom" }

/-- A concrete update-only job configuration. -/
def PU : JobParams := { P0 with importType := .updateExisting }

/-- An environment whose bulk update statement is rejected by the store. -/
def envUF : Env Int Int Int :=
  { env0 with updateExec := fun _ => .error "ubad" }

/-! Helper lemmas about the embedded operations. -/

theorem getVal_setVal_self {κ α : Type} [DecidableEq κ]
    (m : List (κ × α)) (k : κ) (v : α) :
    getVal (setVal m k v) k = some v := by
  induction m with
  | nil => simp [setVal, getVal]
  | cons p rest ih =>
      obtain ⟨k2, v2⟩ := p
      by_cases h : k2 = k
      · simp [setVal, h, getVal]
      · simp [setVal, h, getVal, ih]

theorem getVal_setVal_ne {κ α : Type} [DecidableEq κ]
    (m : List (κ × α)) (k k2 : κ) (v : α) (h : k ≠ k2) :
    getVal (setVal m k v) k2 = getVal m k2 := by
  induction m with
  | nil => simp [setVal, getVal, h]
  | cons p rest ih =>
      obtain ⟨k3, v3⟩ := p
      by_cases h3 : k3 = k
      · subst h3
        simp [setVal, getVal, h]
      · simp only [setVal, if_neg h3]
        by_cases h2 : k3 = k2
        · simp [getVal, h2]
        · simp [getVal, h2, ih]

theorem foldl_prepareStep_length (c : Coercers F D T) (P : JobParams)
    (env : Env F D T) (ftl : List (String × String)) (req : List String)
    (rows : List RawRow) :
    ∀ acc : List (Record F D T) × List (FailedRow F D T),
      (rows.foldl (prepareStep c P env ftl req) acc).1.length +
        (rows.foldl (prepareStep c P env ftl req) acc).2.length =
      acc.1.length + acc.2.length + rows.length := by
  induction rows with
  | nil => intro acc; simp
  | cons r rest ih =>
      intro acc
      simp only [List.foldl_cons]
      rw [ih]
      unfold prepareStep
      cases prepareRecord c P env ftl req r <;> simp <;> omega

theorem prepareRows_length (c : Coercers F D T) (P : JobParams)
    (env : Env F D T) (ftl : List (String × String)) (req : List String)
    (rows : List RawRow) :
    (prepareRows c P env ftl req rows).1.length +
      (prepareRows c P env ftl req rows).2.length = rows.length := by
  have h := foldl_prepareStep_length c P env ftl req rows ([], [])
  simpa [prepareRows] using h

theorem partitionUpsert_lengths (env : Env F D T) (kf : String)
    (em : List (Value F D T × String)) (records : List (Record F D T)) :
    ∀ k : Nat,
      (partitionUpsert env kf em records k).1.length +
        (partitionUpsert env kf em records k).2.1.length = records.length ∧
      (partitionUpsert env kf em records k).2.2.length = records.length := by
  induction records with
  | nil => intro k; simp [partitionUpsert]
  | cons r rest ih =>
      intro k
      cases hb : (getVal r kf).bind (fun v => getVal em v) with
      | some nm =>
          have h1 := ih k
          simp only [partitionUpsert, hb]
          rcases hpp : partitionUpsert env kf em rest k with ⟨ti, tu, al⟩
          rw [hpp] at h1
          simp at h1 ⊢
          omega
      | none =>
          have h1 := ih (k + 1)
          simp only [partitionUpsert, hb]
          rcases hpp : partitionUpsert env kf em rest (k + 1) with ⟨ti, tu, al⟩
          rw [hpp] at h1
          simp at h1 ⊢
          omega

theorem nameRecords_length (env : Env F D T) (records : List (Record F D T)) :
    (nameRecords env records).length = records.length := by
  simp [nameRecords]

theorem runFork_lengths (c : Coercers F D T) (P : JobParams) (env : Env F D T)
    (records : List (Record F D T)) :
    (runFork c P env records).recsNow.length = records.length ∧
    ∀ n, (runFork c P env records).result = Except.ok n →
      n = records.length := by
  cases hmode : P.importType with
  | insertUpdate =>
      simp only [runFork, hmode]
      cases hu : P.updateOnField with
      | none => simp
      | some col =>
          by_cases hc : col = ""
          · simp [hc]
          · simp only [hc, if_false]
            cases hm : getVal P.fieldMapping col with
            | none => simp
            | some mf =>
                by_cases hmf : mf = ""
                · simp [hmf]
                · simp only [hmf, if_false]
                  have hlen := partitionUpsert_lengths env mf
                    (env.existingDocs.filter (fun p => p.1 ∈
                      ((records.filterMap (fun r => getVal r mf)).filter
                        (fun v => ! c.falsy v)).eraseDups)) records 0
                  rcases hpp : partitionUpsert env mf
                    (env.existingDocs.filter (fun p => p.1 ∈
                      ((records.filterMap (fun r => getVal r mf)).filter
                        (fun v => ! c.falsy v)).eraseDups)) records 0
                    with ⟨ti, tu, al⟩
                  rw [hpp] at hlen
                  simp only at hlen
                  rcases hru : runUpdates env (chunksOf UPDATE_CHUNK_SIZE tu)
                    with ⟨ures, ucalls⟩
                  cases ures with
                  | error e => simp [hpp, hru]; omega
                  | ok u =>
                      by_cases hti : ti.isEmpty
                      · simp [hpp, hru, hti]
                        constructor
                        · omega
                        · omega
                      · cases hie : env.insertExec ti with
                        | ok v => simp [hpp, hru, hti, hie]
                                  constructor
                                  · omega
                                  · omega
                        | error e => simp [hpp, hru, hti, hie]; omega
  | insertNew =>
      simp only [runFork, hmode]
      cases hie : env.insertExec (nameRecords env records) with
      | ok v => simp [hie, nameRecords_length]
      | error e => simp [hie, nameRecords_length]
  | updateExisting =>
      simp only [runFork, hmode]
      rcases hru : runUpdates env (chunksOf UPDATE_CHUNK_SIZE records)
        with ⟨ures, ucalls⟩
      cases ures with
      | ok u => simp [hru]
      | error e => simp [hru]

theorem insertRecords_sum (c : Coercers F D T) (P : JobParams)
    (env : Env F D T) (ftl : List (String × String)) (req : List String)
    (rows : List RawRow) :
    (insertRecords c P env ftl req rows).successCount +
      (insertRecords c P env ftl req rows).failedRows.length = rows.length := by
  have hpr := prepareRows_length c P env ftl req rows
  unfold insertRecords
  by_cases hemp : (prepareRows c P env ftl req rows).1.isEmpty
  · rw [List.isEmpty_iff] at hemp
    simp [hemp]
    rw [hemp] at hpr
    simpa using hpr
  · have hfk := runFork_lengths c P env (prepareRows c P env ftl req rows).1
    simp only [hemp, Bool.false_eq_true, if_false]
    cases hres : (runFork c P env (prepareRows c P env ftl req rows).1).result
      with
    | ok n =>
        have := hfk.2 n hres
        simp [this]
        omega
    | error e =>
        have h1 := hfk.1
        dsimp only
        simp only [List.length_append, List.length_map, Nat.zero_add]
        omega

theorem chunksOfFuel_flatten {α : Type} (n : Nat) (hn : 0 < n) :
    ∀ (fuel : Nat) (l : List α), l.length ≤ fuel →
      (chunksOfFuel n fuel l).flatten = l := by
  intro fuel
  induction fuel with
  | zero =>
      intro l hl
      cases l with
      | nil => rfl
      | cons x xs => simp at hl
  | succ fuel ih =>
      intro l hl
      cases l with
      | nil => rfl
      | cons x xs =>
          rw [chunksOfFuel, List.flatten_cons, ih, List.take_append_drop]
          simp only [List.length_drop, List.length_cons] at hl ⊢
          omega

theorem chunksOf_flatten {α : Type} (n : Nat) (hn : 0 < n) (l : List α) :
    (chunksOf n l).flatten = l := by
  rw [chunksOf, if_neg (Nat.pos_iff_ne_zero.mp hn)]
  exact chunksOfFuel_flatten n hn l.length l le_rfl

theorem foldl_queueStep (c : Coercers F D T) (P : JobParams) (env : Env F D T)
    (ftl : List (String × String)) (req : List String)
    (batches : List (List RawRow)) :
    ∀ acc : Nat × Nat × List (FailedRow F D T),
      (batches.foldl (queueStep c P env ftl req) acc).1 +
        (batches.foldl (queueStep c P env ftl req) acc).2.1 =
      acc.1 + acc.2.1 + (batches.map List.length).sum := by
  induction batches with
  | nil => intro acc; simp
  | cons b rest ih =>
      intro acc
      simp only [List.foldl_cons, List.map_cons, List.sum_cons]
      rw [ih]
      have hb := insertRecords_sum c P env ftl req b
      simp only [queueStep]
      omega

/-- The invariant behind claim C1: after a full run the persisted counters
add up to the number of loaded rows, for every environment and mode. -/
theorem processImportQueue_sum (c : Coercers F D T) (P : JobParams)
    (env : Env F D T) (ftl : List (String × String)) (req : List String)
    (bs : Nat) (hbs : 0 < bs) (rows : List RawRow) :
    (processImportQueue c P env ftl req bs rows).successful +
      (processImportQueue c P env ftl req bs rows).failed =
    (processImportQueue c P env ftl req bs rows).total := by
  have hfold := foldl_queueStep c P env ftl req (chunksOf bs rows) (0, 0, [])
  have hlen : ((chunksOf bs rows).map List.length).sum = rows.length := by
    rw [← List.length_flatten, chunksOf_flatten bs hbs rows]
  simp only [processImportQueue]
  simp at hfold
  rw [hfold, hlen]

/-- Case analysis of the terminal-status computation, assuming the counter
invariant `failed ≤ total`. -/
theorem finalStatus_spec (total failed : Nat) (hle : failed ≤ total) :
    (finalStatus total failed = "Failed" ↔ failed = total) ∧
    (finalStatus total failed = "Partial Success" ↔
      0 < failed ∧ failed < total) ∧
    (finalStatus total failed = "Completed" ↔ failed = 0 ∧ 0 < total) := by
  unfold finalStatus
  by_cases h1 : failed = total
  · simp only [if_pos h1]
    refine ⟨by simp [h1], ?_, ?_⟩
    · constructor
      · intro habs; exact absurd habs (by decide)
      · intro ⟨h2, h3⟩; omega
    · constructor
      · intro habs; exact absurd habs (by decide)
      · intro ⟨h2, h3⟩; omega
  · simp only [if_neg h1]
    by_cases h2 : 0 < failed
    · simp only [if_pos h2]
      refine ⟨?_, by simp [h2]; omega, ?_⟩
      · constructor
        · intro habs; exact absurd habs (by decide)
        · intro h3; exact absurd h3 h1
      · constructor
        · intro habs; exact absurd habs (by decide)
        · intro ⟨h3, h4⟩; omega
    · simp only [if_neg h2]
      refine ⟨?_, ?_, ?_⟩
      · constructor
        · intro habs; exact absurd habs (by decide)
        · intro h3; exact absurd h3 h1
      · constructor
        · intro habs; exact absurd habs (by decide)
        · intro ⟨h3, h4⟩; omega
      · constructor
        · intro _; omega
        · intro _; trivial

/-- C1: for every job run to completion, in every import mode and for every
environment (so whether rows fail by transformation, statement rejection or
hook veto), the persisted counters satisfy
`successful_records + failed_records = total_records`, and `total_records` is
the number of loaded CSV data rows. -/
theorem C1_counters_balance (c : Coercers F D T) (P : JobParams)
    (env : Env F D T) (ftl : List (String × String)) (req : List String)
    (bs : Nat) (rows : List RawRow) (hbs : 0 < bs) :
    (processImportQueue c P env ftl req bs rows).successful +
      (processImportQueue c P env ftl req bs rows).failed =
    (processImportQueue c P env ftl req bs rows).total ∧
    (processImportQueue c P env ftl req bs rows).total = rows.length :=
  ⟨processImportQueue_sum c P env ftl req bs hbs rows, rfl⟩

theorem C1_counters_balance_witness :
    (processImportQueue c0 P0 env0 [("age", "Int")] [] 2
      [[("age", some "1")], [("age", some "x")], [("age", some "3")]]).successful +
      (processImportQueue c0 P0 env0 [("age", "Int")] [] 2
        [[("age", some "1")], [("age", some "x")], [("age", some "3")]]).failed =
    (processImportQueue c0 P0 env0 [("age", "Int")] [] 2
      [[("age", some "1")], [("age", some "x")], [("age", some "3")]]).total :=
  (C1_counters_balance c0 P0 env0 [("age", "Int")] [] 2
    [[("age", some "1")], [("age", some "x")], [("age", some "3")]]
    (by decide)).1

/-- C2 counterexample: a job whose input has zero rows (total = 0,
failed = 0) terminates with status `Failed`, not `Completed` — the code's
`failed_records == total_rows` test fires at 0 == 0. -/
theorem C2_zero_rows_failed :
    (processImportQueue c0 P0 env0 [("age", "Int")] [] 10
      ([] : List RawRow)).total = 0 ∧
    (processImportQueue c0 P0 env0 [("age", "Int")] [] 10
      ([] : List RawRow)).failed = 0 ∧
    (processImportQueue c0 P0 env0 [("age", "Int")] [] 10
      ([] : List RawRow)).status = "Failed" ∧
    (processImportQueue c0 P0 env0 [("age", "Int")] [] 10
      ([] : List RawRow)).status ≠ "Completed" := by
  refine ⟨rfl, rfl, rfl, by decide⟩

/-- C2 (amended): the terminal status is `Failed` iff failed = total
(including the zero-row job, where 0 = 0), `Partial Success` iff
0 < failed < total, and `Completed` iff failed = 0 and total > 0. -/
theorem C2_terminal_status (c : Coercers F D T) (P : JobParams)
    (env : Env F D T) (ftl : List (String × String)) (req : List String)
    (bs : Nat) (rows : List RawRow) (hbs : 0 < bs) :
    ((processImportQueue c P env ftl req bs rows).status = "Failed" ↔
      (processImportQueue c P env ftl req bs rows).failed =
        (processImportQueue c P env ftl req bs rows).total) ∧
    ((processImportQueue c P env ftl req bs rows).status = "Partial Success" ↔
      0 < (processImportQueue c P env ftl req bs rows).failed ∧
        (processImportQueue c P env ftl req bs rows).failed <
          (processImportQueue c P env ftl req bs rows).total) ∧
    ((processImportQueue c P env ftl req bs rows).status = "Completed" ↔
      (processImportQueue c P env ftl req bs rows).failed = 0 ∧
        0 < (processImportQueue c P env ftl req bs rows).total) := by
  have hsum := processImportQueue_sum c P env ftl req bs hbs rows
  have hle : (processImportQueue c P env ftl req bs rows).failed ≤
      (processImportQueue c P env ftl req bs rows).total := by omega
  have hst : (processImportQueue c P env ftl req bs rows).status =
      finalStatus (processImportQueue c P env ftl req bs rows).total
        (processImportQueue c P env ftl req bs rows).failed := rfl
  rw [hst]
  exact finalStatus_spec _ _ hle

theorem C2_terminal_status_witness :
    (processImportQueue c0 P0 env0 [("age", "Int")] [] 10
      [[("age", some "1")], [("age", some "x")]]).status = "Partial Success" :=
  ((C2_terminal_status c0 P0 env0 [("age", "Int")] [] 10
    [[("age", some "1")], [("age", some "x")]] (by decide)).2.1).mpr
    (by refine ⟨?_, ?_⟩ <;> decide)

theorem getVal_foldl_setVal_not_mem {κ α : Type} [DecidableEq κ]
    (writes : List (κ × α)) (k : κ) (h : ∀ p ∈ writes, p.1 ≠ k) :
    ∀ m : List (κ × α),
      getVal (writes.foldl (fun m p => setVal m p.1 p.2) m) k = getVal m k := by
  induction writes with
  | nil => intro m; rfl
  | cons q rest ih =>
      intro m
      simp only [List.foldl_cons]
      rw [ih (fun p hp => h p (List.mem_cons_of_mem _ hp))]
      exact getVal_setVal_ne m q.1 k q.2 (h q (List.mem_cons_self _ _))

theorem getVal_foldl_setVal {κ α : Type} [DecidableEq κ]
    (writes : List (κ × α)) (k : κ) (v : α) (hmem : (k, v) ∈ writes)
    (huniq : ∀ p ∈ writes, p.1 = k → p.2 = v) :
    ∀ m : List (κ × α),
      getVal (writes.foldl (fun m p => setVal m p.1 p.2) m) k = some v := by
  induction writes with
  | nil => cases hmem
  | cons q rest ih =>
      intro m
      by_cases hq : (k, v) ∈ rest
      · exact ih hq (fun p hp hpk =>
          huniq p (List.mem_cons_of_mem _ hp) hpk) _
      · have hqe : q = (k, v) := by
          rcases List.mem_cons.mp hmem with h1 | h2
          · exact h1.symm
          · exact absurd h2 hq
        subst hqe
        simp only [List.foldl_cons]
        have hrest : ∀ p ∈ rest, p.1 ≠ k := by
          intro p hp hpk
          obtain ⟨pk, pv⟩ := p
          have hpv := huniq (pk, pv) (List.mem_cons_of_mem _ hp) hpk
          simp only at hpk hpv
          subst hpk
          subst hpv
          exact hq hp
        rw [getVal_foldl_setVal_not_mem rest k hrest]
        exact getVal_setVal_self m k v

theorem map_snd_diag {β : Type} (l : List β) :
    List.map (Prod.snd ∘ fun h => (h, h)) l = l := by
  induction l with
  | nil => rfl
  | cons a t ih =>
      simp only [List.map_cons, ih]
      rfl

/-- C3 counterexample: with a schema whose only (required) field is
`first_name`, the header `name` — which exactly equals the known system field
name `name` — is auto-mapped to `first_name` by the hard-coded override, not
to itself; and `unmapped_required` comes back empty although `first_name`
does not appear among the headers, refuting both halves of the claim. -/
theorem C3_name_header_counterexample :
    "name" ∈ (detailedFields [⟨"first_name", some "First Name", true⟩]).map
      Prod.fst ∧
    autoMapAndValidate [⟨"first_name", some "First Name", true⟩] ["name"] =
      ([("name", "first_name")], []) ∧
    requiredNames [⟨"first_name", some "First Name", true⟩] = ["first_name"] ∧
    ¬ ("first_name" ∈ ["name"]) := by decide

/-- C3 (amended): for headers that exactly equal known field names, are
non-empty, and whose normalizations are claimed by no other write into the
normalized field map (in particular are not the overridden keys `id` and
`name` and are not shadowed by another field's label), `auto_map_and_validate`
maps every header to itself, and `unmapped_required` is empty iff every
required field's name appears among the headers. -/
theorem C3_automap_roundtrip (fields : List FieldMeta) (headers : List String)
    (hw : ∀ h ∈ headers, (normalize h, h) ∈ mapWrites fields ∧
      ∀ p ∈ mapWrites fields, p.1 = normalize h → p.2 = h)
    (hne : ∀ h ∈ headers, h ≠ "") :
    (autoMapAndValidate fields headers).1 = headers.map (fun h => (h, h)) ∧
    ((autoMapAndValidate fields headers).2 = [] ↔
      ∀ f ∈ requiredNames fields, f ∈ headers) := by
  have hlook : ∀ h ∈ headers,
      getVal (buildFieldMap fields) (normalize h) = some h := by
    intro h hh
    exact getVal_foldl_setVal (mapWrites fields) (normalize h) h
      (hw h hh).1 (hw h hh).2 []
  have hmap : (autoMapAndValidate fields headers).1 =
      headers.map (fun h => (h, h)) := by
    simp only [autoMapAndValidate]
    refine List.map_congr_left ?_
    intro h hh
    rw [hlook h hh]
    rfl
  refine ⟨hmap, ?_⟩
  have hmapped :
      (((autoMapAndValidate fields headers).1.map Prod.snd).filter
        (fun v => v ≠ "")) = headers := by
    rw [hmap, List.map_map]
    rw [map_snd_diag, List.filter_eq_self]
    intro a ha
    simpa using hne a ha
  have hunm : (autoMapAndValidate fields headers).2 =
      (requiredNames fields).filter (fun f => ¬ f ∈ headers) := by
    simp only [autoMapAndValidate] at hmapped ⊢
    rw [hmapped]
  rw [hunm, List.filter_eq_nil_iff]
  constructor
  · intro hall f hf
    have := hall f hf
    simpa using this
  · intro hall f hf
    simpa using hall f hf

theorem C3_automap_roundtrip_witness :
    (autoMapAndValidate [⟨"age", some "Age", true⟩] ["age"]).1 =
      [("age", "age")] ∧
    ((autoMapAndValidate [⟨"age", some "Age", true⟩] ["age"]).2 = [] ↔
      ∀ f ∈ requiredNames [⟨"age", some "Age", true⟩], f ∈ ["age"]) := by
  have h := C3_automap_roundtrip [⟨"age", some "Age", true⟩] ["age"]
    (by decide) (by decide)
  simpa using h

/-- C4: in every import mode, when the store rejects a bulk insert or bulk
update statement of the call, every row attempted in that call is marked
failed with that statement's error text and the call's success count is
zero; the failure does not escape `insert_records`, and the queue keeps
processing the remaining chunks (its counters still account for every loaded
row, whatever the environment).  The three conjuncts cover the insert-mode
insert statement, the update-mode chunked update statements, and upsert
mode's update-then-insert statements respectively. -/
theorem C4_statement_failure (c : Coercers F D T) (P : JobParams)
    (env : Env F D T) (ftl : List (String × String)) (req : List String)
    (rows : List RawRow) (e : String) :
    ((P.importType = .insertNew →
      (prepareRows c P env ftl req rows).1 ≠ [] →
      env.insertExec
        (nameRecords env (prepareRows c P env ftl req rows).1) =
        .error e →
      (insertRecords c P env ftl req rows).successCount = 0 ∧
      (insertRecords c P env ftl req rows).failedRows =
        (prepareRows c P env ftl req rows).2 ++
          (nameRecords env (prepareRows c P env ftl req rows).1).map
            (fun r => ⟨.conv r, e⟩)) ∧
     (P.importType = .updateExisting →
      (prepareRows c P env ftl req rows).1 ≠ [] →
      (runUpdates env (chunksOf UPDATE_CHUNK_SIZE
        (prepareRows c P env ftl req rows).1)).1 = .error e →
      (insertRecords c P env ftl req rows).successCount = 0 ∧
      (insertRecords c P env ftl req rows).failedRows =
        (prepareRows c P env ftl req rows).2 ++
          (prepareRows c P env ftl req rows).1.map
            (fun r => ⟨.conv r, e⟩)) ∧
     (∀ (col mf : String)
        (ti tu named : List (Record F D T)),
      P.importType = .insertUpdate →
      P.updateOnField = some col → col ≠ "" →
      getVal P.fieldMapping col = some mf → mf ≠ "" →
      (prepareRows c P env ftl req rows).1 ≠ [] →
      partitionUpsert env mf
        (env.existingDocs.filter (fun p => p.1 ∈
          (((prepareRows c P env ftl req rows).1.filterMap
            (fun r => getVal r mf)).filter
              (fun v => ! c.falsy v)).eraseDups))
        (prepareRows c P env ftl req rows).1 0 = (ti, tu, named) →
      ((runUpdates env (chunksOf UPDATE_CHUNK_SIZE tu)).1 = .error e ∨
       ((runUpdates env (chunksOf UPDATE_CHUNK_SIZE tu)).1 = .ok () ∧
        ti ≠ [] ∧ env.insertExec ti = .error e)) →
      (insertRecords c P env ftl req rows).successCount = 0 ∧
      (insertRecords c P env ftl req rows).failedRows =
        (prepareRows c P env ftl req rows).2 ++
          named.map (fun r => ⟨.conv r, e⟩)) ∧
     (∀ (bs : Nat) (rows2 : List RawRow), 0 < bs →
      (processImportQueue c P env ftl req bs rows2).successful +
        (processImportQueue c P env ftl req bs rows2).failed =
      rows2.length)) := by
  refine ⟨?_, ?_, ?_, ?_⟩
  · intro hmode hne hfail
    have hemp : (prepareRows c P env ftl req rows).1.isEmpty = false := by
      rw [← Bool.not_eq_true, List.isEmpty_iff]
      exact hne
    have hfk : runFork c P env (prepareRows c P env ftl req rows).1 =
        ⟨.error e,
          [.insert (nameRecords env (prepareRows c P env ftl req rows).1)],
          nameRecords env (prepareRows c P env ftl req rows).1⟩ := by
      simp only [runFork, hmode, hfail]
    constructor <;>
      simp only [insertRecords, hemp, Bool.false_eq_true, if_false, hfk]
  · intro hmode hne hfail
    have hemp : (prepareRows c P env ftl req rows).1.isEmpty = false := by
      rw [← Bool.not_eq_true, List.isEmpty_iff]
      exact hne
    have hfk : runFork c P env (prepareRows c P env ftl req rows).1 =
        ⟨.error e,
          (runUpdates env (chunksOf UPDATE_CHUNK_SIZE
            (prepareRows c P env ftl req rows).1)).2,
          (prepareRows c P env ftl req rows).1⟩ := by
      rcases hru : runUpdates env (chunksOf UPDATE_CHUNK_SIZE
        (prepareRows c P env ftl req rows).1) with ⟨ures, ucalls⟩
      rw [hru] at hfail
      simp only at hfail
      subst hfail
      simp only [runFork, hmode, hru]
    constructor <;>
      simp only [insertRecords, hemp, Bool.false_eq_true, if_false, hfk]
  · intro col mf ti tu named hmode hcol hcne hmf hmfne hne hpart hfail
    have hemp : (prepareRows c P env ftl req rows).1.isEmpty = false := by
      rw [← Bool.not_eq_true, List.isEmpty_iff]
      exact hne
    have hfk : (runFork c P env
          (prepareRows c P env ftl req rows).1).result = .error e ∧
        (runFork c P env
          (prepareRows c P env ftl req rows).1).recsNow = named := by
      rcases hfail with hf | ⟨hok, htine, hins⟩
      · rcases hru : runUpdates env (chunksOf UPDATE_CHUNK_SIZE tu)
          with ⟨ures, ucalls⟩
        rw [hru] at hf
        simp only at hf
        subst hf
        simp only [runFork, hmode, hcol, if_neg hcne, hmf, if_neg hmfne,
          hpart, hru]
        exact ⟨trivial, by trivial⟩
      · rcases hru : runUpdates env (chunksOf UPDATE_CHUNK_SIZE tu)
          with ⟨ures, ucalls⟩
        rw [hru] at hok
        simp only at hok
        subst hok
        have htie : ti.isEmpty = false := by
          rw [← Bool.not_eq_true, List.isEmpty_iff]
          exact htine
        simp only [runFork, hmode, hcol, if_neg hcne, hmf, if_neg hmfne,
          hpart, hru, htie, Bool.false_eq_true, if_false, hins]
        exact ⟨trivial, by trivial⟩
    obtain ⟨hr1, hr2⟩ := hfk
    constructor
    · simp only [insertRecords, hemp, Bool.false_eq_true, if_false, hr1]
    · simp only [insertRecords, hemp, Bool.false_eq_true, if_false, hr1,
        hr2]
  · intro bs rows2 hbs
    exact processImportQueue_sum c P env ftl req bs hbs rows2

theorem C4_statement_failure_witness :
    (insertRecords c0 P0 envF [("age", "Int")] []
      [[("age", some "1")]]).successCount = 0 ∧
    (insertRecords c0 P0 envF [("age", "Int")] []
      [[("age", some "1")]]).failedRows =
      (prepareRows c0 P0 envF [("age", "Int")] [] [[("age", some "1")]]).2 ++
        (nameRecords envF
          (prepareRows c0 P0 envF [("age", "Int")] []
            [[("age", some "1")]]).1).map
          (fun r => ⟨.conv r, "boom"⟩) ∧
    (insertRecords c0 PU envUF [("age", "Int")] []
      [[("age", some "1")]]).successCount = 0 ∧
    (insertRecords c0 PU envUF [("age", "Int")] []
      [[("age", some "1")]]).failedRows =
      (prepareRows c0 PU envUF [("age", "Int")] []
        [[("age", some "1")]]).2 ++
        (prepareRows c0 PU envUF [("age", "Int")] []
          [[("age", some "1")]]).1.map (fun r => ⟨.conv r, "ubad"⟩) ∧
    (processImportQueue c0 P0 envF [("age", "Int")] [] 1
      [[("age", some "1")], [("age", some "2")]]).successful +
      (processImportQueue c0 P0 envF [("age", "Int")] [] 1
        [[("age", some "1")], [("age", some "2")]]).failed = 2 := by
  have h1 := (C4_statement_failure c0 P0 envF [("age", "Int")] []
    [[("age", some "1")]] "boom").1 rfl (by decide) rfl
  have h2 := (C4_statement_failure c0 PU envUF [("age", "Int")] []
    [[("age", some "1")]] "ubad").2.1 rfl (by decide) rfl
  have h3 := (C4_statement_failure c0 P0 envF [("age", "Int")] []
    [[("age", some "1")]] "boom").2.2.2 1
    [[("age", some "1")], [("age", some "2")]] (by decide)
  exact ⟨h1.1, h1.2, h2.1, h2.2, h3⟩

/-- C5: per declared type, a known field's non-empty raw value is coerced to
integer / float / date / datetime, any other declared type passes the string
through unchanged, a parse failure fails the row naming the offending field
and its raw value, an empty or absent raw value becomes an explicit null for
every declared type, and the preparation loop never aborts the batch — each
row contributes exactly one prepared record or one failed row. -/
theorem C5_row_transform (c : Coercers F D T) :
    (∀ (ftl : List (String × String)) (field s : String) (acc : Record F D T),
      s ≠ "" → getVal ftl field = some "Int" →
      coerceEntry c ftl acc field (some s) =
        (match c.parseInt s with
         | some n => .ok (setVal acc field (.intv n))
         | none =>
            .error ("Invalid value for field " ++ field ++ ": " ++ s))) ∧
    (∀ (ftl : List (String × String)) (field s : String) (acc : Record F D T),
      s ≠ "" → getVal ftl field = some "Float" →
      coerceEntry c ftl acc field (some s) =
        (match c.parseFloat s with
         | some x => .ok (setVal acc field (.floatv x))
         | none =>
            .error ("Invalid value for field " ++ field ++ ": " ++ s))) ∧
    (∀ (ftl : List (String × String)) (field s : String) (acc : Record F D T),
      s ≠ "" → getVal ftl field = some "Date" →
      coerceEntry c ftl acc field (some s) =
        (match c.parseDate s with
         | some x => .ok (setVal acc field (.datev x))
         | none =>
            .error ("Invalid value for field " ++ field ++ ": " ++ s))) ∧
    (∀ (ftl : List (String × String)) (field s : String) (acc : Record F D T),
      s ≠ "" → getVal ftl field = some "Datetime" →
      coerceEntry c ftl acc field (some s) =
        (match c.parseDatetime s with
         | some x => .ok (setVal acc field (.datetimev x))
         | none =>
            .error ("Invalid value for field " ++ field ++ ": " ++ s))) ∧
    (∀ (ftl : List (String × String)) (field s t : String)
        (acc : Record F D T),
      s ≠ "" → getVal ftl field = some t →
      t ≠ "Int" → t ≠ "Float" → t ≠ "Date" → t ≠ "Datetime" →
      coerceEntry c ftl acc field (some s) =
        .ok (setVal acc field (.str s))) ∧
    (∀ (ftl : List (String × String)) (field t : String)
        (acc : Record F D T),
      getVal ftl field = some t →
      coerceEntry c ftl acc field none = .ok (setVal acc field .null) ∧
      coerceEntry c ftl acc field (some "") =
        .ok (setVal acc field .null)) ∧
    (∀ (P : JobParams) (env : Env F D T) (ftl : List (String × String))
        (req : List String) (rows : List RawRow),
      (prepareRows c P env ftl req rows).1.length +
        (prepareRows c P env ftl req rows).2.length = rows.length) := by
  refine ⟨?_, ?_, ?_, ?_, ?_, ?_, ?_⟩
  · intro ftl field s acc hs hget
    simp only [coerceEntry, hget, if_neg hs]
    cases hp : c.parseInt s <;> simp [convertValue, hp, Except.map]
  · intro ftl field s acc hs hget
    simp only [coerceEntry, hget, if_neg hs]
    cases hp : c.parseFloat s <;> simp [convertValue, hp, Except.map]
  · intro ftl field s acc hs hget
    simp only [coerceEntry, hget, if_neg hs]
    cases hp : c.parseDate s <;> simp [convertValue, hp, Except.map]
  · intro ftl field s acc hs hget
    simp only [coerceEntry, hget, if_neg hs]
    cases hp : c.parseDatetime s <;> simp [convertValue, hp, Except.map]
  · intro ftl field s t acc hs hget h1 h2 h3 h4
    simp only [coerceEntry, hget, if_neg hs]
    simp [convertValue, h1, h2, h3, h4, Except.map]
  · intro ftl field t acc hget
    refine ⟨?_, ?_⟩ <;> simp [coerceEntry, hget]
  · intro P env ftl req rows
    exact prepareRows_length c P env ftl req rows

theorem C5_row_transform_witness :
    coerceEntry c0 [("age", "Int")] [] "age" (some "7") =
      .ok [("age", Value.intv 7)] ∧
    coerceEntry c0 [("age", "Int")] [] "age" (some "x") =
      .error "Invalid value for field age: x" ∧
    coerceEntry c0 [("age", "Int")] [] "age" (some "") =
      .ok [("age", Value.null)] := by
  have h1 := (C5_row_transform c0).1 [("age", "Int")] "age" "7" []
    (by decide) (by decide)
  have h2 := (C5_row_transform c0).1 [("age", "Int")] "age" "x" []
    (by decide) (by decide)
  have h3 := ((C5_row_transform c0).2.2.2.2.2.1 [("age", "Int")] "age" "Int"
    [] (by decide)).2
  refine ⟨?_, ?_, ?_⟩
  · rw [h1]; decide
  · rw [h2]; decide
  · rw [h3]; decide

/-- C6 counterexample: a required `Int` field whose raw value `"0"` coerces
to the integer 0 — a non-null value — still fails the required check, because
the code tests Python truthiness (`not converted_data.get(f)`) and 0 is
falsy. -/
theorem C6_zero_required_counterexample :
    convertRow c0 [("age", "Int")] [("age", some "0")] =
      .ok [("age", Value.intv 0)] ∧
    prepareRecord c0 P0 env0 [("age", "Int")] ["age"]
      [("age", some "0")] = .error "Missing required fields: age" := by
  decide

/-- C6 (amended): after coercion the row passes the required check iff every
required field's coerced value is truthy (so a null, missing, zero-numeric or
empty-string value counts as missing), a failing check reports all such
fields together in one message, and that failure fails exactly that row in
`insert_records` preparation. -/
theorem C6_required_check (c : Coercers F D T) (required : List String)
    (conv : Record F D T) :
    (checkRequired c required conv = .ok () ↔
      ∀ f ∈ required, ¬ c.falsyOpt (getVal conv f)) ∧
    (∀ e, checkRequired c required conv = .error e →
      e = "Missing required fields: " ++
        String.intercalate ", "
          (required.filter (fun f => c.falsyOpt (getVal conv f)))) ∧
    (∀ (P : JobParams) (env : Env F D T) (ftl : List (String × String))
        (row : RawRow) (conv2 : Record F D T) (e2 : String),
      convertRow c ftl row = .ok conv2 →
      checkRequired c required conv2 = .error e2 →
      prepareRecord c P env ftl required row = .error e2) := by
  refine ⟨?_, ?_, ?_⟩
  · simp only [checkRequired]
    by_cases hemp :
        (required.filter (fun f => c.falsyOpt (getVal conv f))).isEmpty
    · simp only [hemp, if_true]
      rw [List.isEmpty_iff, List.filter_eq_nil_iff] at hemp
      constructor
      · intro _ f hf
        simpa using hemp f hf
      · intro _
        trivial
    · simp only [hemp, Bool.false_eq_true, if_false]
      constructor
      · intro habs
        cases habs
      · intro hall
        exfalso
        apply hemp
        rw [List.isEmpty_iff, List.filter_eq_nil_iff]
        intro f hf
        simpa using hall f hf
  · intro e
    simp only [checkRequired]
    by_cases hemp :
        (required.filter (fun f => c.falsyOpt (getVal conv f))).isEmpty
    · simp only [hemp, if_true]
      intro habs
      cases habs
    · simp only [hemp, Bool.false_eq_true, if_false]
      intro heq
      cases heq
      rfl
  · intro P env ftl row conv2 e2 hconv hcheck
    simp [prepareRecord, hconv, hcheck, Bind.bind, Except.bind]

theorem C6_required_check_witness :
    checkRequired c0 ["age"] [("age", Value.intv 0)] =
      .error "Missing required fields: age" ∧
    prepareRecord c0 P0 env0 [("age", "Int")] ["age"]
      [("age", some "0")] = .error "Missing required fields: age" := by
  have h2 := (C6_required_check c0 ["age"]
      ((convertRow c0 [("age", "Int")] [("age", some "0")]).toOption.getD
        [])).2.2
    P0 env0 [("age", "Int")] [("age", some "0")]
    [("age", Value.intv 0)] "Missing required fields: age"
    (by decide) (by decide)
  exact ⟨by decide, h2⟩

/-- C7 counterexample: with the upsert key column unspecified, the call does
not fail as a call — it returns normally, having converted both prepared rows
of the batch into individual per-row failures carrying the configuration
message (and issuing no write). -/
theorem C7_upsert_config_counterexample :
    insertRecords c0 P7 env0 [("age", "Int")] []
      [[("age", some "1")], [("age", some "2")]] =
      ⟨0,
        [⟨.conv [("age", .intv 1), ("owner", .str "u"),
            ("modified_by", .str "u"), ("creation", .str "t"),
            ("modified", .str "t")],
          "Validate On CSV Column not specified for \x27Insert and Update\x27 mode."⟩,
         ⟨.conv [("age", .intv 2), ("owner", .str "u"),
            ("modified_by", .str "u"), ("creation", .str "t"),
            ("modified", .str "t")],
          "Validate On CSV Column not specified for \x27Insert and Update\x27 mode."⟩],
        []⟩ := by decide

/-- C7 (amended): in upsert mode with the key column unspecified or unmapped,
the configuration error is raised before any write — no bulk statement is
issued — but `insert_records` absorbs it into individual per-row failures:
every prepared row of the batch is marked failed with the descriptive
configuration message and the call's success count is zero, the call itself
returning normally. -/
theorem C7_upsert_missing_key (c : Coercers F D T) (P : JobParams)
    (env : Env F D T) (ftl : List (String × String)) (req : List String)
    (rows : List RawRow)
    (hmode : P.importType = .insertUpdate)
    (hne : (prepareRows c P env ftl req rows).1 ≠ [])
    (hkey : P.updateOnField = none ∨ P.updateOnField = some "" ∨
      ∃ col, P.updateOnField = some col ∧ col ≠ "" ∧
        (getVal P.fieldMapping col = none ∨
          getVal P.fieldMapping col = some "")) :
    ∃ msg,
      (insertRecords c P env ftl req rows).calls = [] ∧
      (insertRecords c P env ftl req rows).successCount = 0 ∧
      (insertRecords c P env ftl req rows).failedRows =
        (prepareRows c P env ftl req rows).2 ++
          (prepareRows c P env ftl req rows).1.map
            (fun r => ⟨.conv r, msg⟩) ∧
      (msg =
        "Validate On CSV Column not specified for \x27Insert and Update\x27 mode." ∨
       ∃ col, P.updateOnField = some col ∧
         msg = "The selected update column \x27" ++ col ++
           "\x27 is not mapped to any DocType field.") := by
  have hemp : (prepareRows c P env ftl req rows).1.isEmpty = false := by
    rw [← Bool.not_eq_true, List.isEmpty_iff]
    exact hne
  have hfin : ∃ msg, runFork c P env (prepareRows c P env ftl req rows).1 =
      ⟨.error msg, [], (prepareRows c P env ftl req rows).1⟩ ∧
      (msg =
        "Validate On CSV Column not specified for \x27Insert and Update\x27 mode." ∨
       ∃ col, P.updateOnField = some col ∧
         msg = "The selected update column \x27" ++ col ++
           "\x27 is not mapped to any DocType field.") := by
    rcases hkey with h1 | h2 | ⟨col, hcol, hcne, hmapped⟩
    · exact ⟨_, by simp only [runFork, hmode, h1], Or.inl rfl⟩
    · exact ⟨_, by simp [runFork, hmode, h2], Or.inl rfl⟩
    · rcases hmapped with hm | hm
      · exact ⟨_, by simp only [runFork, hmode, hcol, if_neg hcne, hm],
          Or.inr ⟨col, hcol, rfl⟩⟩
      · exact ⟨_, by simp [runFork, hmode, hcol, hcne, hm],
          Or.inr ⟨col, hcol, rfl⟩⟩
  obtain ⟨msg, hfk, hmsg⟩ := hfin
  refine ⟨msg, ?_, ?_, ?_, hmsg⟩ <;>
    simp only [insertRecords, hemp, Bool.false_eq_true, if_false, hfk]

theorem C7_upsert_missing_key_witness :
    ∃ msg,
      (insertRecords c0 P7 env0 [("age", "Int")] []
        [[("age", some "1")], [("age", some "2")]]).calls = [] ∧
      (insertRecords c0 P7 env0 [("age", "Int")] []
        [[("age", some "1")], [("age", some "2")]]).successCount = 0 ∧
      (insertRecords c0 P7 env0 [("age", "Int")] []
        [[("age", some "1")], [("age", some "2")]]).failedRows =
        (prepareRows c0 P7 env0 [("age", "Int")] []
          [[("age", some "1")], [("age", some "2")]]).2 ++
          (prepareRows c0 P7 env0 [("age", "Int")] []
            [[("age", some "1")], [("age", some "2")]]).1.map
            (fun r => ⟨.conv r, msg⟩) ∧
      (msg =
        "Validate On CSV Column not specified for \x27Insert and Update\x27 mode." ∨
       ∃ col, P7.updateOnField = some col ∧
         msg = "The selected update column \x27" ++ col ++
           "\x27 is not mapped to any DocType field.") :=
  C7_upsert_missing_key c0 P7 env0 [("age", "Int")] []
    [[("age", some "1")], [("age", some "2")]] rfl (by decide) (Or.inl rfl)

/-- C8 counterexample: calling start on an `In Progress` job yields the
configuration error and no enqueue, but the job's status does not stay
`In Progress` — the error handler resets it to `Draft`. -/
theorem C8_start_inprogress_counterexample :
    startImport ⟨"In Progress", some "m"⟩ none =
      ⟨false, "Import can only be started from Draft status", "Draft",
        false⟩ ∧
    (startImport ⟨"In Progress", some "m"⟩ none).newStatus ≠
      "In Progress" := by decide

/-- C8 (amended): calling start on any job whose status is not `Draft` fails
with the configuration error and enqueues nothing, and the error handler
resets the job's status to `Draft` rather than leaving it unchanged. -/
theorem C8_start_non_draft (st : StartState) (mapping : Option String)
    (h : st.status ≠ "Draft") :
    startImport st mapping =
      ⟨false, "Import can only be started from Draft status", "Draft",
        false⟩ := by
  simp [startImport, h]

theorem C8_start_non_draft_witness :
    startImport ⟨"Queued", none⟩ none =
      ⟨false, "Import can only be started from Draft status", "Draft",
        false⟩ :=
  C8_start_non_draft ⟨"Queued", none⟩ none (by decide)

theorem foldl_caseFields_preserve (c : Coercers F D T)
    (records : List (Record F D T)) (n f : String)
    (hnone : (caseRecords c records f).find?
      (fun r => nameStr c r = n) = none) :
    ∀ (fs : List String) (vs : List (String × String)),
      getVal (fs.foldl (fun vs g =>
        match (caseRecords c records g).find?
            (fun r => nameStr c r = n) with
        | some r => setVal vs g (c.cstr ((getVal r g).getD .null))
        | none => vs) vs) f = getVal vs f := by
  intro fs
  induction fs with
  | nil => intro vs; rfl
  | cons a fs ih =>
      intro vs
      simp only [List.foldl_cons]
      by_cases ha : a = f
      · subst ha
        rw [hnone]
        exact ih vs
      · cases hfind : (caseRecords c records a).find?
            (fun r => nameStr c r = n) with
        | none => exact ih vs
        | some r =>
            exact (ih (setVal vs a (c.cstr ((getVal r a).getD .null)))).trans
              (getVal_setVal_ne vs a f _ ha)

/-- C9: within one bulk-update statement, a stored row for which every
targeting record leaves a field absent (not present, or present as null)
keeps its stored value for that field: the `CASE ... ELSE field END` default
branch never overwrites it with null. -/
theorem C9_update_preserves_absent (c : Coercers F D T)
    (metaFields : List String) (records : List (Record F D T))
    (store : Store) (n f : String)
    (habs : ∀ r ∈ records, nameStr c r = n →
      getVal r f = none ∨ getVal r f = some .null) :
    storeLookup (applyBulkUpdate c metaFields records store) n f =
      storeLookup store n f := by
  have hnone : (caseRecords c records f).find?
      (fun r => nameStr c r = n) = none := by
    cases hf : (caseRecords c records f).find?
        (fun r => nameStr c r = n) with
    | none => rfl
    | some r =>
        exfalso
        have hmem := List.mem_of_find?_eq_some hf
        have hp : nameStr c r = n := by
          have := List.find?_some hf
          simpa using this
        have hmem2 := List.mem_filter.mp hmem
        have hval := habs r hmem2.1 hp
        have hand := hmem2.2
        rw [Bool.and_eq_true] at hand
        have hhas := hand.2
        rcases hval with hv | hv <;>
          simp [hasFieldValue, hv] at hhas
  simp only [applyBulkUpdate]
  by_cases h1 : records.isEmpty
  · simp [h1]
  · simp only [h1, Bool.false_eq_true, if_false]
    by_cases h2 : (fieldsToUpdate metaFields records).isEmpty
    · simp [h2]
    · simp only [h2, Bool.false_eq_true, if_false]
      by_cases h3 : ((fieldsToUpdate metaFields records).filter
          (fun g => ! (caseRecords c records g).isEmpty)).isEmpty
      · simp [h3]
      · simp only [h3, Bool.false_eq_true, if_false]
        simp only [storeLookup]
        rw [List.find?_map]
        have hcomp :
            ((fun row : String × List (String × String) =>
              decide (row.1 = n)) ∘ fun row =>
                if row.1 ∈ (records.filterMap (fun r =>
                    if truthyName c r then some (nameStr c r)
                    else none)).eraseDups then
                  (row.1, ((fieldsToUpdate metaFields records).filter
                    (fun g => ! (caseRecords c records g).isEmpty)).foldl
                      (fun vs g =>
                        match (caseRecords c records g).find?
                            (fun r => nameStr c r = row.1) with
                        | some r =>
                            setVal vs g (c.cstr ((getVal r g).getD .null))
                        | none => vs) row.2)
                else row) =
            fun row : String × List (String × String) =>
              decide (row.1 = n) := by
          funext row
          by_cases hw : row.1 ∈ (records.filterMap (fun r =>
              if truthyName c r then some (nameStr c r)
              else none)).eraseDups <;> simp [hw]
        rw [hcomp]
        cases hfind : store.find?
            (fun row : String × List (String × String) =>
              decide (row.1 = n)) with
        | none => rfl
        | some row =>
            have hrn : row.1 = n := by
              have := List.find?_some hfind
              simpa using this
            simp only [Option.map_some', Option.some_bind]
            by_cases hw : row.1 ∈ (records.filterMap (fun r =>
                if truthyName c r then some (nameStr c r)
                else none)).eraseDups
            · simp only [hw, if_true]
              rw [hrn]
              exact foldl_caseFields_preserve c records n f hnone _ row.2
            · simp [hw]

theorem C9_update_preserves_absent_witness :
    storeLookup (applyBulkUpdate c0 ["age", "city"]
      [[("name", .str "r1"), ("city", .str "Paris")]]
      [("r1", [("age", "30"), ("city", "Oslo")]),
       ("r2", [("age", "9"), ("city", "Rome")])]) "r1" "age" =
      storeLookup
        [("r1", [("age", "30"), ("city", "Oslo")]),
         ("r2", [("age", "9"), ("city", "Rome")])] "r1" "age" :=
  C9_update_preserves_absent c0 ["age", "city"]
    [[("name", .str "r1"), ("city", .str "Paris")]]
    [("r1", [("age", "30"), ("city", "Oslo")]),
     ("r2", [("age", "9"), ("city", "Rome")])] "r1" "age"
    (by decide)

/-- C10 counterexample: in a two-row job whose first row succeeds and whose
second row fails, the materialized error artifact records row number "1" for
the failed row — its 1-based position within the failure list — although
that row is input row 2 of the job. -/
theorem C10_rownumber_counterexample :
    (processImportQueue c0 P0 env0 [("age", "Int")] [] 10
      [[("age", some "1")], [("age", some "x")]]).total = 2 ∧
    (processImportQueue c0 P0 env0 [("age", "Int")] [] 10
      [[("age", some "1")], [("age", some "x")]]).successful = 1 ∧
    (processImportQueue c0 P0 env0 [("age", "Int")] [] 10
      [[("age", some "1")], [("age", some "x")]]).allFailed =
      [⟨.raw [("age", some "x")], "Invalid value for field age: x"⟩] ∧
    (processImportQueue c0 P0 env0 [("age", "Int")] [] 10
      [[("age", some "1")], [("age", some "x")]]).errorFile =
      some [["age", "Error Message", "Row Number"],
            ["x", "Invalid value for field age: x", "1"]] := by decide

/-- C10 (amended): for every non-empty failure list the error artifact holds
a header row plus exactly one record per failed row, pairing the row's cells
with its error reason and a 1-based sequence number that is the row's
position within the failure list (`enumerate(failed_rows, 1)`), not its
position among all input rows of the job. -/
theorem C10_error_artifact (c : Coercers F D T)
    (fails : List (FailedRow F D T)) (hne : fails ≠ []) :
    ∃ out, generateErrorFile c fails = some out ∧
      out.length = fails.length + 1 ∧
      ∀ (i : Nat) (hi : i < fails.length) (ho : i + 1 < out.length),
        out.get ⟨i + 1, ho⟩ =
          rowCells c (fails.get ⟨i, hi⟩).row ++
            [(fails.get ⟨i, hi⟩).error, toString (i + 1)] := by
  cases fails with
  | nil => cases hne rfl
  | cons f0 rest =>
      refine ⟨_, rfl, ?_, ?_⟩
      · simp [generateErrorFile]
      · intro i hi ho
        simp only [generateErrorFile, List.get_eq_getElem,
          List.getElem_cons_succ, List.getElem_map, List.getElem_enum]

theorem C10_error_artifact_witness :
    ∃ out, generateErrorFile c0
        [⟨.raw [("age", some "x")], "bad x"⟩,
         ⟨.raw [("age", some "y")], "bad y"⟩] = some out ∧
      out.length = 3 ∧
      out.get? 2 = some ["y", "bad y", "2"] := by
  obtain ⟨o, ho, hlen, hget⟩ := C10_error_artifact c0
    [⟨.raw [("age", some "x")], "bad x"⟩,
     ⟨.raw [("age", some "y")], "bad y"⟩] (by decide)
  have hlen3 : o.length = 3 := by simpa using hlen
  refine ⟨o, ho, hlen3, ?_⟩
  have h2 := hget 1 (by decide) (by omega)
  have h3 : o.get? 2 = some (o.get ⟨2, by omega⟩) :=
    List.get?_eq_get (by omega)
  rw [h3, h2]
  decide

end LightningImport
